import Mathlib

/- Shallow embedding of generation_two/build.py, the multi-target release
   packaging workflow of the worldquant-miner repository.  The filesystem is
   modelled as the list of existing paths, each path being its list of
   segments relative to the project root (the script directory generation_two
   is a child of the project root, as in the source).  External tools are
   oracles supplied by an environment record.  Every procedure of the script
   is a state transformer that also records a trace of observable events and
   may abort with an exception, mirroring Python exception flow. -/

/-- A filesystem path: its segments relative to the project root. -/
abbrev FPath := List String

/-- str.startswith(pre), over the character data so that it computes by
kernel reduction. -/
def strHasPre (pre s : String) : Bool := pre.data.isPrefixOf s.data

/-- str.endswith(suf), over the character data. -/
def strHasSuf (suf s : String) : Bool := suf.data.reverse.isPrefixOf s.data.reverse

/-- str.lower(), over the character data. -/
def strToLower (s : String) : String := ⟨s.data.map Char.toLower⟩

/-- Observable effects of the build script: subprocess invocations,
filesystem mutations, console output, and the direct library call of the
last-resort Debian conversion path. -/
inductive Event where
  | cmd (c : List String) (check : Bool)
  | write (p : FPath)
  | remove (p : FPath)
  | print (s : String)
  | lib (s : String)
deriving DecidableEq

/-- Python exceptions raised by the script. -/
inductive Err where
  | fileNotFound (s : String)
  | calledProcessError (c : List String)
  | nameError (s : String)
  | libError (s : String)
deriving DecidableEq

/-- The effect monad of the build script: state is the list of existing
paths, the result is either a value or a raised exception, and a trace of
events is accumulated on the side. -/
def M (α : Type) : Type := List FPath → Except Err α × List FPath × List Event

instance : Monad M where
  pure a := fun fs => (Except.ok a, fs, [])
  bind m f := fun fs =>
    match m fs with
    | (Except.ok a, fs1, t1) =>
      match f a fs1 with
      | (r, fs2, t2) => (r, fs2, t1 ++ t2)
    | (Except.error e, fs1, t1) => (Except.error e, fs1, t1)

/-- Record one event. -/
def emitP (e : Event) : M Unit := fun fs => (Except.ok (), fs, [e])

/-- Read the current filesystem (used for the glob searches). -/
def getFs : M (List FPath) := fun fs => (Except.ok fs, fs, [])

/-- Path.exists() -/
def existsP (p : FPath) : M Bool := fun fs => (Except.ok (fs.contains p), fs, [])

/-- raise -/
def raiseE {α : Type} (e : Err) : M α := fun fs => (Except.error e, fs, [])

/-- Path.mkdir(exist_ok=True, parents=True): ensures the path exists. -/
def mkdirP (p : FPath) : M Unit := fun fs => (Except.ok (), fs ++ [p], [Event.write p])

/-- Path.write_text: creates (or overwrites) the file. -/
def writeTextP (p : FPath) : M Unit := fun fs => (Except.ok (), fs ++ [p], [Event.write p])

/-- shutil.copy2(src, dst): dst now exists. -/
def copy2P (src dst : FPath) : M Unit := fun fs => (Except.ok (), fs ++ [dst], [Event.write dst])

/-- Path.unlink: the file no longer exists. -/
def unlinkP (p : FPath) : M Unit := fun fs =>
  (Except.ok (), fs.filter (fun q => !(q == p)), [Event.remove p])

/-- shutil.rmtree: the path and everything below it no longer exist. -/
def rmtreeP (p : FPath) : M Unit := fun fs =>
  (Except.ok (), fs.filter (fun q => !(p.isPrefixOf q)), [Event.remove p])

/-- Rebase one path for a move or rename of src to dst. -/
def relocate (src dst : FPath) (q : FPath) : FPath :=
  if src.isPrefixOf q then dst ++ q.drop src.length else q

/-- shutil.move or Path.rename: the whole subtree below src moves to dst. -/
def moveP (src dst : FPath) : M Unit := fun fs =>
  (Except.ok (), fs.map (relocate src dst), [Event.remove src, Event.write dst])

/-- try/except Exception. -/
def tryCatchE {α : Type} (m : M α) (h : Err → M α) : M α := fun fs =>
  match m fs with
  | (Except.ok a, fs1, t1) => (Except.ok a, fs1, t1)
  | (Except.error e, fs1, t1) =>
    match h e fs1 with
    | (r, fs2, t2) => (r, fs2, t1 ++ t2)

/-- try/finally: the finalizer runs on the success path and on the exception
path alike; an error of the finalizer itself replaces the result. -/
def tryFinallyE {α : Type} (m : M α) (fin : M Unit) : M α := fun fs =>
  match m fs with
  | (Except.ok a, fs1, t1) =>
    (match fin fs1 with
     | (Except.ok _, fs2, t2) => (Except.ok a, fs2, t1 ++ t2)
     | (Except.error e2, fs2, t2) => (Except.error e2, fs2, t1 ++ t2))
  | (Except.error e, fs1, t1) =>
    (match fin fs1 with
     | (Except.ok _, fs2, t2) => (Except.error e, fs2, t1 ++ t2)
     | (Except.error e2, fs2, t2) => (Except.error e2, fs2, t1 ++ t2))

/-- SCRIPT_DIR, the directory of build.py, a child of the project root. -/
def scriptDir : FPath := ["generation_two"]

/-- SCRIPT_DIR / "gui" / "run_gui.py" -/
def guiScript : FPath := scriptDir ++ ["gui", "run_gui.py"]

/-- SCRIPT_DIR / "constants" / "operatorRAW.json" -/
def constantsFile : FPath := scriptDir ++ ["constants", "operatorRAW.json"]

/-- PROJECT_ROOT / "constants" / "operatorRAW.json" -/
def rootConstants : FPath := ["constants", "operatorRAW.json"]

/-- PROJECT_ROOT / "generation_two.spec" -/
def specFile : FPath := ["generation_two.spec"]

/-- PROJECT_ROOT / "generation_two_macos.spec" -/
def macSpecFile : FPath := ["generation_two_macos.spec"]

/-- SCRIPT_DIR / "dist" -/
def scriptDist : FPath := scriptDir ++ ["dist"]

/-- PROJECT_ROOT / "dist" -/
def rootDist : FPath := ["dist"]

/-- SCRIPT_DIR / "build" -/
def scriptBuild : FPath := scriptDir ++ ["build"]

/-- PROJECT_ROOT / "build" -/
def rootBuild : FPath := ["build"]

/-- SCRIPT_DIR / "setup.py" -/
def setupPy : FPath := scriptDir ++ ["setup.py"]

/-- PROJECT_ROOT / "setup.py" -/
def rootSetupPy : FPath := ["setup.py"]

/-- PROJECT_ROOT / "dist" / "generation-two.exe" -/
def exePath : FPath := ["dist", "generation-two.exe"]

/-- SCRIPT_DIR / "dist" / "generation-two.exe" -/
def exeTarget : FPath := scriptDist ++ ["generation-two.exe"]

/-- PROJECT_ROOT / "dist" / "GenerationTwo" -/
def appOutputDir : FPath := ["dist", "GenerationTwo"]

/-- PROJECT_ROOT / "dist" / "GenerationTwo.app" -/
def appPath : FPath := ["dist", "GenerationTwo.app"]

/-- PROJECT_ROOT / "dist" / "deb_dist" -/
def debDistDir : FPath := ["dist", "deb_dist"]

/-- The temporary directory of tempfile.TemporaryDirectory(). -/
def tmpDir : FPath := ["<tmpdir>"]

/-- sys.executable -m pip install pyinstaller -/
def pipInstallPyinstaller : List String := ["python", "-m", "pip", "install", "pyinstaller"]

/-- sys.executable -m pip install stdeb -/
def pipInstallStdeb : List String := ["python", "-m", "pip", "install", "stdeb"]

/-- sys.executable root_setup_py sdist -/
def sdistCmd : List String := ["python", "setup.py", "sdist"]

/-- sys.executable -m PyInstaller --clean generation_two.spec -/
def pyinstallerCmd : List String := ["python", "-m", "PyInstaller", "--clean", "generation_two.spec"]

/-- sys.executable -m PyInstaller --clean -y generation_two_macos.spec -/
def pyinstallerMacCmd : List String :=
  ["python", "-m", "PyInstaller", "--clean", "-y", "generation_two_macos.spec"]

/-- sys.executable -m stdeb.command.py2dsc_deb on the source archive. -/
def moduleConvCmd (tar : String) : List String :=
  ["python", "-m", "stdeb.command.py2dsc_deb", tar]

/-- create-dmg with the fixed window geometry and layout parameters. -/
def createDmgCmd (dmg app : String) : List String :=
  ["create-dmg", "--volname", "Generation Two", "--window-pos", "200", "120",
   "--window-size", "800", "400", "--icon-size", "100",
   "--app-drop-link", "600", "185", dmg, app]

/-- The host environment of one run: the platform string, the command-line
arguments after the program name, whether the PyInstaller import succeeds,
the shutil.which result for py2dsc-deb, the exit status and filesystem
effect of each subprocess, the relative paths inside the source archive,
and the outcome of the direct py2dsc_deb.main library call. -/
structure Env where
  platform : String
  argv : List String
  pyinstallerInstalled : Bool
  py2dscDebPath : Option String
  cmdExit : List String → Nat
  cmdEffect : List String → List FPath → List FPath
  sdistContents : List FPath
  libOk : Bool
  libDebNames : List String

/-- run_command of build.py: run a subprocess; with check the Python
subprocess.run raises CalledProcessError on a non-zero exit, without check
the error output is printed and the boolean result tells whether the exit
status was zero. -/
def run_command (env : Env) (cmd : List String) (check : Bool) : M Bool := fun fs =>
  let fs1 := env.cmdEffect cmd fs
  if check then
    if env.cmdExit cmd = 0 then (Except.ok true, fs1, [Event.cmd cmd true])
    else (Except.error (Err.calledProcessError cmd), fs1, [Event.cmd cmd true])
  else
    (Except.ok (env.cmdExit cmd == 0), fs1,
      Event.cmd cmd false ::
        (if env.cmdExit cmd = 0 then [] else [Event.print ("Error output")]))

/-- The constants-file resolution shared verbatim by build_windows_exe and
build_macos_dmg (the macOS copy prints two extra diagnostic lines before
raising, selected by the verbose flag). -/
def resolveConstantsM (verbose : Bool) : M Unit := do
  let ce ← existsP constantsFile
  if !ce then
    let re ← existsP rootConstants
    if re then
      mkdirP (scriptDir ++ ["constants"])
      copy2P rootConstants constantsFile
      emitP (Event.print ("[OK] Copied constants file from root"))
    else
      if verbose then
        emitP (Event.print ("[ERROR] Constants file not found"))
      raiseE (Err.fileNotFound ("operatorRAW.json"))

/-- build_windows_exe of build.py. -/
def build_windows_exe (env : Env) : M Unit := do
  if !env.pyinstallerInstalled then
    let _ ← run_command env pipInstallPyinstaller true
    pure ()
  resolveConstantsM false
  let ge ← existsP guiScript
  if !ge then
    raiseE (Err.fileNotFound ("run_gui.py"))
  writeTextP specFile
  mkdirP scriptDist
  let _ ← run_command env pyinstallerCmd true
  let ee ← existsP exePath
  if ee then
    mkdirP scriptDist
    moveP exePath exeTarget
    emitP (Event.print ("[OK] Windows EXE built"))
  else
    emitP (Event.print ("[ERROR] EXE not found in expected location"))

/-- The two glob patterns of build_linux_deb over PROJECT_ROOT/dist:
generation_two-*.tar.gz then generation-two-*.tar.gz. -/
def globTars (fs : List FPath) : List FPath :=
  fs.filter (fun q =>
    match q with
    | ["dist", n] => strHasPre ("generation_two-") n && strHasSuf (".tar.gz") n
    | _ => false)
  ++ fs.filter (fun q =>
    match q with
    | ["dist", n] => strHasPre ("generation-two-") n && strHasSuf (".tar.gz") n
    | _ => false)

/-- tar.extractall(tmpdir): the archive entries appear under the temporary
directory. -/
def extractAllP (contents : List FPath) : M Unit := fun fs =>
  (Except.ok (), fs ++ contents.map (fun r => tmpDir ++ r), [Event.write tmpDir])

/-- The direct py2dsc_deb.main([]) library call of the last-resort path,
run inside the extracted package directory: an external library, modelled
as an oracle that either deposits deb files under deb_dist or raises. -/
def libCallP (env : Env) (packageDir : FPath) : M Unit := fun fs =>
  if env.libOk then
    (Except.ok (),
      fs ++ [packageDir ++ ["deb_dist"]]
         ++ env.libDebNames.map (fun n => packageDir ++ ["deb_dist", n]),
      [Event.lib ("py2dsc_deb.main")])
  else
    (Except.error (Err.libError ("py2dsc_deb.main")), fs, [Event.lib ("py2dsc_deb.main")])

/-- rglob("*.deb") below a directory. -/
def debsUnder (d : FPath) (fs : List FPath) : List FPath :=
  fs.filter (fun q => d.isPrefixOf q && strHasSuf (".deb") (q.getLastD ("")))

/-- Move each found deb file into PROJECT_ROOT/dist. -/
def moveDebsToDist : List FPath → M Unit
  | [] => pure ()
  | p :: ps => do
    moveP p (rootDist ++ [p.getLastD ("")])
    emitP (Event.print ("[OK] Moved DEB"))
    moveDebsToDist ps

/-- The extracted directories holding a setup.py, as found by iterating the
temporary directory after extraction. -/
def extractedPkgDirs (contents : List FPath) : List String :=
  contents.filterMap (fun r =>
    match r with
    | [c, "setup.py"] => some c
    | _ => none)

/-- The body of the with tempfile.TemporaryDirectory() block of the
last-resort conversion path: extract the source archive, find the package
directory holding setup.py, run py2dsc_deb.main inside it, and move the
deb files out of its deb_dist directory. -/
def apiFallbackBody (env : Env) : M Unit := do
  extractAllP env.sdistContents
  match extractedPkgDirs env.sdistContents with
  | [] => raiseE (Err.fileNotFound ("Could not find setup.py in extracted archive"))
  | c :: _ => do
    libCallP env (tmpDir ++ [c])
    let de ← existsP (tmpDir ++ [c] ++ ["deb_dist"])
    if de then
      let fsNow ← getFs
      moveDebsToDist (debsUnder (tmpDir ++ [c] ++ ["deb_dist"]) fsNow)
    else
      raiseE (Err.fileNotFound ("deb_dist not found"))

/-- The last-resort conversion path; the context manager removes the
temporary directory on success and on exception alike. -/
def apiFallback (env : Env) : M Unit :=
  tryFinallyE (apiFallbackBody env) (rmtreeP tmpDir)

/-- The conversion step of build_linux_deb: when the py2dsc-deb tool is on
the search path its invocation is tried without check, and on failure the
source only warns and assigns None to the already-consumed variable (a dead
store, so no fallback actually runs); when the tool is absent, the module
invocation is tried, and an exception there falls through to the direct
library call path. -/
def convertStep (env : Env) (tarName : String) : M Unit := do
  match env.py2dscDebPath with
  | some cmdPath => do
    emitP (Event.print ("Trying py2dsc-deb command..."))
    let result ← run_command env [cmdPath, tarName] false
    if !result then
      emitP (Event.print ("[WARN] py2dsc-deb command failed, trying fallback methods..."))
  | none => do
    emitP (Event.print ("[WARN] py2dsc-deb not in PATH, trying Python module..."))
    tryCatchE
      (do
        let _ ← run_command env (moduleConvCmd tarName) true
        pure ())
      (fun _ => do
        emitP (Event.print ("[WARN] Module approach failed"))
        apiFallback env)

/-- The two-stage deb search of build_linux_deb: first below dist/deb_dist
when that directory exists, then recursively below the whole project root. -/
def selectDebFiles (fs : List FPath) : List FPath :=
  let inDebDist := if fs.contains debDistDir then debsUnder debDistDir fs else []
  if inDebDist.isEmpty then fs.filter (fun q => strHasSuf (".deb") (q.getLastD ("")))
  else inDebDist

/-- The final deb search of build_linux_deb: the first match found is moved
into the script-local dist folder, and an empty search only prints. -/
def debSearchStep : M Unit := do
  let fsNow ← getFs
  match selectDebFiles fsNow with
  | [] => emitP (Event.print ("[ERROR] DEB file not found"))
  | d :: _ => do
    mkdirP scriptDist
    moveP d (scriptDist ++ [d.getLastD ("")])
    emitP (Event.print ("[OK] Linux DEB built"))

/-- The source-distribution step of build_linux_deb: setup.py is copied to
the project root when absent there, and the temporary copy is removed in a
finally block even when the sdist subprocess raises. -/
def sdistStage (env : Env) : M Unit := do
  let se ← existsP setupPy
  if !se then
    raiseE (Err.fileNotFound ("setup.py"))
  let rse ← existsP rootSetupPy
  let cleanupSetup ←
    if !rse then do
      copy2P setupPy rootSetupPy
      emitP (Event.print ("[OK] Copied setup.py to project root"))
      pure true
    else
      pure false
  tryFinallyE
    (do
      let _ ← run_command env sdistCmd true
      pure ())
    (do
      if cleanupSetup then
        let e ← existsP rootSetupPy
        if e then
          unlinkP rootSetupPy
          emitP (Event.print ("[OK] Cleaned up temporary setup.py")))

/-- build_linux_deb of build.py. -/
def build_linux_deb (env : Env) : M Unit := do
  let _ ← run_command env pipInstallStdeb false
  sdistStage env
  let fsNow ← getFs
  match globTars fsNow with
  | [] => emitP (Event.print ("[ERROR] Source distribution not found"))
  | t :: _ => do
    emitP (Event.print ("[OK] Found source distribution"))
    convertStep env (t.getLastD (""))
    debSearchStep

/-- build_macos_dmg of build.py.  Line 464 of the source reads
dmg_path.parent.mkdir(...), but no dmg_path variable is ever assigned in
the function or at module level, so Python raises NameError there; the
create-dmg invocation below that line is unreachable. -/
def build_macos_dmg (env : Env) : M Unit := do
  if env.platform ≠ "darwin" then
    emitP (Event.print ("[WARN] DMG can only be built on macOS"))
  else
    if !env.pyinstallerInstalled then
      let _ ← run_command env pipInstallPyinstaller true
      pure ()
    resolveConstantsM true
    let ge ← existsP guiScript
    if !ge then
      raiseE (Err.fileNotFound ("run_gui.py"))
    emitP (Event.print ("[OK] Found constants file"))
    writeTextP macSpecFile
    emitP (Event.print ("[OK] Created spec file"))
    let ae ← existsP appOutputDir
    if ae then
      emitP (Event.print ("Cleaning existing app bundle"))
      rmtreeP appOutputDir
    let _ ← run_command env pyinstallerMacCmd true
    let be ← existsP appOutputDir
    if be then
      let ce ← existsP (appOutputDir ++ ["Contents"])
      if ce then
        emitP (Event.print ("[OK] Found app bundle directory, renaming"))
        let pe ← existsP appPath
        if pe then
          rmtreeP appPath
        moveP appOutputDir appPath
      else
        emitP (Event.print ("[ERROR] GenerationTwo directory exists but is not a valid app bundle"))
        raiseE (Err.fileNotFound ("Invalid app bundle structure"))
    else
      let pe2 ← existsP appPath
      if !pe2 then
        emitP (Event.print ("[ERROR] App bundle not found"))
        raiseE (Err.fileNotFound ("App bundle not found"))
    emitP (Event.print ("[OK] Found app bundle"))
    raiseE (Err.nameError ("dmg_path"))
    let dmgResult ← run_command env (createDmgCmd ("<dmg_path>") "dist/GenerationTwo.app") false
    let de ← existsP ["<dmg_path>"]
    if dmgResult && de then
      emitP (Event.print ("[OK] macOS DMG built"))
    else
      emitP (Event.print ("[WARN] DMG creation may have failed, but app bundle is available"))

/-- The four stale directories removed by main before dispatching. -/
def cleanTargets : List FPath := [scriptDist, rootDist, scriptBuild, rootBuild]

/-- One iteration of the cleaning loop of main. -/
def cleanOne (d : FPath) : M Unit := do
  let e ← existsP d
  if e then
    emitP (Event.print ("Cleaning"))
    rmtreeP d

/-- The cleaning loop of main. -/
def cleanList : List FPath → M Unit
  | [] => pure ()
  | d :: ds => do
    cleanOne d
    cleanList ds

/-- The whole cleaning prelude of main: remove the four stale directories,
then recreate the script-local dist directory. -/
def cleanPhase : M Unit := do
  cleanList cleanTargets
  mkdirP scriptDist

/-- The three build procedures. -/
inductive Builder where
  | windows
  | linux
  | macos
deriving DecidableEq

/-- The platform autodetection of main, over sys.platform.lower(). -/
def autodetectBuilds (platform : String) : List Builder :=
  if strHasPre ("win") platform then [Builder.windows]
  else if strHasPre ("linux") platform then [Builder.linux]
  else if platform == "darwin" then [Builder.macos]
  else []

/-- The builds the --all flag triggers: Windows and Linux unconditionally,
macOS only when sys.platform is darwin. -/
def allBuilds (sysPlatform : String) : List Builder :=
  [Builder.windows, Builder.linux] ++ (if sysPlatform == "darwin" then [Builder.macos] else [])

/-- The builds the explicit command-line flags trigger, in the order of the
source; the section is guarded by len(sys.argv) greater than one, i.e. a
nonempty argument list. -/
def flagBuilds (sysPlatform : String) (argv : List String) : List Builder :=
  if argv.isEmpty then []
  else
    (if argv.contains ("--exe") then [Builder.windows] else []) ++
    (if argv.contains ("--deb") then [Builder.linux] else []) ++
    (if argv.contains ("--dmg") then [Builder.macos] else []) ++
    (if argv.contains ("--all") then allBuilds sysPlatform else [])

/-- Every build procedure one invocation of main dispatches, in order:
the autodetected build first, then the flag-driven ones. -/
def buildsDispatched (platform : String) (argv : List String) : List Builder :=
  autodetectBuilds (strToLower platform) ++ flagBuilds platform argv

/-- Dispatch one build procedure. -/
def runBuilder (env : Env) : Builder → M Unit
  | Builder.windows => build_windows_exe env
  | Builder.linux => build_linux_deb env
  | Builder.macos => build_macos_dmg env

/-- Dispatch a list of build procedures in order. -/
def runBuilders (env : Env) : List Builder → M Unit
  | [] => pure ()
  | b :: bs => do
    runBuilder env b
    runBuilders env bs

/-- The dispatch part of main: the autodetected build (or a usage hint when
the platform is unknown), then the flag-driven builds, then the final
banner. -/
def dispatchPhase (env : Env) : M Unit := do
  runBuilders env (autodetectBuilds (strToLower env.platform))
  if (autodetectBuilds (strToLower env.platform)).isEmpty then
    emitP (Event.print ("[WARN] Unknown platform"))
  runBuilders env (flagBuilds env.platform env.argv)
  emitP (Event.print ("Build complete!"))

/-- main of build.py: the cleaning prelude, then the dispatching. -/
def mainB (env : Env) : M Unit := do
  cleanPhase
  dispatchPhase env

/-- Is this command a pip install invocation (dependency installation)? -/
def isPipInstall (c : List String) : Bool :=
  c.take 4 == ["python", "-m", "pip", "install"]

/-- A subprocess event other than dependency installation. -/
def isNonPipCmdEvent : Event → Bool
  | Event.cmd c _ => !(isPipInstall c)
  | _ => false

/-- A subprocess event invoking the stdeb module conversion path. -/
def mentionsModuleConv : Event → Bool
  | Event.cmd c _ => c.contains ("stdeb.command.py2dsc_deb")
  | _ => false

/-- A direct library call event. -/
def isLibEvent : Event → Bool
  | Event.lib _ => true
  | _ => false

/-- A subprocess event invoking create-dmg. -/
def isCreateDmgEvent : Event → Bool
  | Event.cmd c _ => c.head? == some ("create-dmg")
  | _ => false

/-- A Linux host with no optional tooling and inert subprocesses. -/
def envDebPlain : Env :=
  ⟨"linux", [], false, none, fun _ => 0, fun _ fs => fs, [], true, []⟩

/-- A Linux host where py2dsc-deb is on the search path but its invocation
exits with status 1, while the sdist subprocess succeeds and deposits a
source archive in PROJECT_ROOT/dist. -/
def envDebCmdFail : Env :=
  ⟨"linux", [], true, some ("py2dsc-deb"),
    fun c => if c == ["py2dsc-deb", "generation_two-1.0.0.tar.gz"] then 1 else 0,
    fun c fs =>
      if c == sdistCmd then fs ++ [rootDist, ["dist", "generation_two-1.0.0.tar.gz"]] else fs,
    [], true, []⟩

/-- The starting filesystem for the Debian runs: only the script-local
setup.py exists. -/
def fsDeb : List FPath := [setupPy]

/-- A macOS host with PyInstaller installed, where the freeze subprocess
produces the dist/GenerationTwo bundle directory with its Contents. -/
def envMac : Env :=
  ⟨"darwin", [], true, none, fun _ => 0,
    fun c fs =>
      if c == pyinstallerMacCmd then fs ++ [appOutputDir, appOutputDir ++ ["Contents"]] else fs,
    [], true, []⟩

/-- The starting filesystem for the macOS run: entry point and resource
file present at their primary locations. -/
def fsMac : List FPath := [guiScript, constantsFile]

/-- A host for the Windows-procedure witnesses: PyInstaller absent so the
dependency installation runs, subprocesses inert. -/
def envWinPlain : Env :=
  ⟨"win32", [], false, none, fun _ => 0, fun _ fs => fs, [], true, []⟩

/-- A non-macOS host used for the guard witness. -/
def envLinuxHost : Env :=
  ⟨"linux", [], true, none, fun _ => 0, fun _ fs => fs, [], true, []⟩

/-- A Windows host where PyInstaller is installed and the freeze subprocess
is inert (the executable is already present in the starting filesystem). -/
def envWinBuilt : Env :=
  ⟨"win32", [], true, none, fun _ => 0, fun _ fs => fs, [], true, []⟩

/-- The property that a computation leaves the existence state of the
project-root setup.py unchanged, whatever the starting filesystem. -/
def KeepsSetup {α : Type} (m : M α) : Prop :=
  ∀ fs : List FPath, ((m fs).2.1.contains rootSetupPy) = fs.contains rootSetupPy

/-- A well-formed filesystem: closed under taking nonempty path parents,
as a real directory tree is (a child cannot exist without its ancestors). -/
abbrev WFfs (fs : List FPath) : Prop :=
  ∀ q ∈ fs, ∀ n < q.length + 1, 0 < n → q.take n ∈ fs

theorem M.run_bind {α β : Type} (m : M α) (f : α → M β) (fs : List FPath) :
    (m >>= f) fs =
      match m fs with
      | (Except.ok a, fs1, t1) =>
        (match f a fs1 with
         | (r, fs2, t2) => (r, fs2, t1 ++ t2))
      | (Except.error e, fs1, t1) => (Except.error e, fs1, t1) := rfl

theorem M.run_pure {α : Type} (a : α) (fs : List FPath) :
    (pure a : M α) fs = (Except.ok a, fs, []) := rfl

theorem contains_iff_mem (fs : List FPath) (p : FPath) :
    fs.contains p = true ↔ p ∈ fs := by
  simp [List.contains, List.elem_iff]

/-- C7: the command runner propagates failure in checked mode (a non-zero
exit raises CalledProcessError) and never raises in unchecked mode, where it
returns a boolean that is true exactly when the exit status was zero. -/
theorem run_command_failure_semantics (env : Env) (cmd : List String) (fs : List FPath) :
    ((run_command env cmd true fs).1 =
      if env.cmdExit cmd = 0 then Except.ok true
      else Except.error (Err.calledProcessError cmd))
  ∧ (run_command env cmd false fs).1 = Except.ok (env.cmdExit cmd == 0) := by
  by_cases h : env.cmdExit cmd = 0 <;> simp [run_command, h]

/-- C6: on a non-macOS host the macOS build procedure only prints a warning
and returns: the filesystem is untouched, no subprocess runs, and no error
is raised. -/
theorem macos_guard_no_effects (env : Env) (fs : List FPath) (h : env.platform ≠ "darwin") :
    build_macos_dmg env fs =
      (Except.ok (), fs, [Event.print ("[WARN] DMG can only be built on macOS")]) := by
  unfold build_macos_dmg
  rw [if_pos h]
  rfl

theorem macos_guard_no_effects_witness :
    build_macos_dmg envLinuxHost [] =
      (Except.ok (), [], [Event.print ("[WARN] DMG can only be built on macOS")]) :=
  macos_guard_no_effects envLinuxHost [] (by decide)

/-- C2: on a macOS host where the freeze step produces a valid app bundle,
build_macos_dmg raises NameError on the undefined variable dmg_path before
the disk-image creation tool is ever invoked, instead of completing
normally; no create-dmg subprocess appears in the trace. -/
theorem macos_dmg_raises_namerror :
    (build_macos_dmg envMac fsMac).1 = Except.error (Err.nameError ("dmg_path"))
  ∧ (build_macos_dmg envMac fsMac).2.2.all (fun e => !(isCreateDmgEvent e)) = true :=
  ⟨rfl, by decide⟩

/-- C1: when py2dsc-deb is on the search path and its invocation fails, the
warning about falling back is printed, yet neither the stdeb module
invocation nor the direct library call ever runs (the None assignment in
the source is a dead store), and the procedure returns without raising. -/
theorem linux_conv_no_fallback_after_cmd_failure :
    (build_linux_deb envDebCmdFail fsDeb).1 = Except.ok ()
  ∧ Event.print ("[WARN] py2dsc-deb command failed, trying fallback methods...")
      ∈ (build_linux_deb envDebCmdFail fsDeb).2.2
  ∧ (build_linux_deb envDebCmdFail fsDeb).2.2.all
      (fun e => !(mentionsModuleConv e) && !(isLibEvent e)) = true :=
  ⟨rfl, by decide, by decide⟩

/-- C3, counterexample: with every input file absent, build_linux_deb does
raise a missing-input error, but only after the dependency-installation
subprocess (pip install stdeb) has already been invoked, so the claim that
no external tool subprocess runs before the abort is false. -/
theorem linux_pip_runs_before_missing_input :
    (build_linux_deb envDebPlain []).1 = Except.error (Err.fileNotFound ("setup.py"))
  ∧ Event.cmd pipInstallStdeb false ∈ (build_linux_deb envDebPlain []).2.2 :=
  ⟨rfl, by decide⟩

theorem run_command_checked_ok (env : Env) (cmd : List String) (fs : List FPath)
    (heff : ∀ c g, env.cmdEffect c g = g) (h0 : env.cmdExit cmd = 0) :
    run_command env cmd true fs = (Except.ok true, fs, [Event.cmd cmd true]) := by
  simp [run_command, heff, h0]

theorem resolveConstants_found (v : Bool) (fs : List FPath) (hc : constantsFile ∈ fs) :
    resolveConstantsM v fs = (Except.ok (), fs, []) := by
  simp [resolveConstantsM, M.run_bind, M.run_pure, existsP, hc]

theorem resolveConstants_notfound (v : Bool) (fs : List FPath)
    (hc : constantsFile ∉ fs) (hr : rootConstants ∉ fs) :
    resolveConstantsM v fs =
      (Except.error (Err.fileNotFound ("operatorRAW.json")), fs,
        if v then [Event.print ("[ERROR] Constants file not found")] else []) := by
  cases v <;>
    simp [resolveConstantsM, M.run_bind, M.run_pure, existsP, emitP, raiseE, hc, hr]

theorem windows_run_missing (env : Env) (fs : List FPath)
    (heff : ∀ c g, env.cmdEffect c g = g)
    (hpip : env.cmdExit pipInstallPyinstaller = 0)
    (hc : constantsFile ∉ fs) (hr : rootConstants ∉ fs) :
    build_windows_exe env fs =
      (Except.error (Err.fileNotFound ("operatorRAW.json")), fs,
        if env.pyinstallerInstalled then [] else [Event.cmd pipInstallPyinstaller true]) := by
  cases hpyi : env.pyinstallerInstalled <;>
    simp [build_windows_exe, M.run_bind, M.run_pure, hpyi,
      run_command_checked_ok env pipInstallPyinstaller fs heff hpip,
      resolveConstants_notfound false fs hc hr]

theorem linux_run_missing (env : Env) (fs : List FPath)
    (heff : ∀ c g, env.cmdEffect c g = g) (hs : setupPy ∉ fs) :
    build_linux_deb env fs =
      (Except.error (Err.fileNotFound ("setup.py")), fs,
        Event.cmd pipInstallStdeb false ::
          (if env.cmdExit pipInstallStdeb = 0 then [] else [Event.print ("Error output")])) := by
  by_cases h0 : env.cmdExit pipInstallStdeb = 0 <;>
    simp [build_linux_deb, sdistStage, M.run_bind, M.run_pure, run_command, existsP, raiseE,
      heff, hs, h0]

/-- C3, amended: with the input files absent (entry point and resource file
for the Windows procedure, setup.py for the Linux procedure), the build
procedures abort by raising a missing-input error before any freezing-tool,
source-distribution or conversion subprocess is invoked; a
dependency-installation subprocess (pip install) may however run before the
check. -/
theorem missing_input_aborts_before_tools (env : Env) (fs : List FPath)
    (heff : ∀ c g, env.cmdEffect c g = g)
    (hpip : env.cmdExit pipInstallPyinstaller = 0)
    (hc : constantsFile ∉ fs) (hr : rootConstants ∉ fs)
    (hg : guiScript ∉ fs) (hs : setupPy ∉ fs) :
    ((build_windows_exe env fs).1 = Except.error (Err.fileNotFound ("operatorRAW.json"))
      ∧ (build_windows_exe env fs).2.2.all (fun e => !(isNonPipCmdEvent e)) = true)
  ∧ ((build_linux_deb env fs).1 = Except.error (Err.fileNotFound ("setup.py"))
      ∧ (build_linux_deb env fs).2.2.all (fun e => !(isNonPipCmdEvent e)) = true) := by
  rw [windows_run_missing env fs heff hpip hc hr, linux_run_missing env fs heff hs]
  refine ⟨⟨rfl, ?_⟩, rfl, ?_⟩
  · cases env.pyinstallerInstalled <;>
      simp [isNonPipCmdEvent, isPipInstall, pipInstallPyinstaller]
  · by_cases h0 : env.cmdExit pipInstallStdeb = 0 <;>
      simp [h0, isNonPipCmdEvent, isPipInstall, pipInstallStdeb]

theorem missing_input_aborts_before_tools_witness :
    ((build_windows_exe envWinPlain []).1 = Except.error (Err.fileNotFound ("operatorRAW.json"))
      ∧ (build_windows_exe envWinPlain []).2.2.all (fun e => !(isNonPipCmdEvent e)) = true)
  ∧ ((build_linux_deb envWinPlain []).1 = Except.error (Err.fileNotFound ("setup.py"))
      ∧ (build_linux_deb envWinPlain []).2.2.all (fun e => !(isNonPipCmdEvent e)) = true) :=
  missing_input_aborts_before_tools envWinPlain [] (fun _ _ => rfl) rfl
    (by decide) (by decide) (by decide) (by decide)

/-- C4: the resource-file resolution checks the primary location first and
touches nothing when it is present; when absent there but present at the
root-level location, the constants directory is created and the file copied
into the primary location, and resolution succeeds; when present at
neither, a file-not-found error is raised. -/
theorem resolve_constants_cases (v : Bool) (fs : List FPath) :
    resolveConstantsM v fs =
      if fs.contains constantsFile then (Except.ok (), fs, [])
      else if fs.contains rootConstants then
        (Except.ok (), fs ++ [scriptDir ++ ["constants"]] ++ [constantsFile],
          [Event.write (scriptDir ++ ["constants"]), Event.write constantsFile,
           Event.print ("[OK] Copied constants file from root")])
      else if v then
        (Except.error (Err.fileNotFound ("operatorRAW.json")), fs,
          [Event.print ("[ERROR] Constants file not found")])
      else (Except.error (Err.fileNotFound ("operatorRAW.json")), fs, []) := by
  by_cases hc : constantsFile ∈ fs <;> by_cases hr : rootConstants ∈ fs <;> cases v <;>
    simp [resolveConstantsM, M.run_bind, M.run_pure, existsP, mkdirP, copy2P, emitP, raiseE,
      hc, hr]

/-- C8: when the --all flag is among the arguments, the flag-driven part of
the driver dispatches the Windows and Linux builds unconditionally and the
macOS build exactly when sys.platform is darwin; together with the
autodetected build this dispatches the Windows procedure twice on a Windows
host. -/
theorem all_flag_dispatch (p : String) (argv : List String)
    (h : argv.contains ("--all") = true) :
    Builder.windows ∈ flagBuilds p argv
  ∧ Builder.linux ∈ flagBuilds p argv
  ∧ (Builder.macos ∈ allBuilds p ↔ p = "darwin")
  ∧ (strHasPre ("win") (strToLower p) = true →
      2 ≤ (buildsDispatched p argv).count Builder.windows) := by
  have hne : argv.isEmpty = false := by
    cases argv with
    | nil => simp at h
    | cons a l => rfl
  have hmem : Builder.windows ∈ allBuilds p ∧ Builder.linux ∈ allBuilds p := by
    constructor <;> simp [allBuilds]
  have hflag : ∀ b : Builder, b ∈ allBuilds p → b ∈ flagBuilds p argv := by
    intro b hb
    simp only [flagBuilds, hne, Bool.false_eq_true, if_false, h, if_true]
    simp [hb]
  refine ⟨hflag _ hmem.1, hflag _ hmem.2, ?_, ?_⟩
  · by_cases hd : p = "darwin" <;> simp [allBuilds, hd]
  · intro hw
    have h1 : autodetectBuilds (strToLower p) = [Builder.windows] := by
      simp [autodetectBuilds, hw]
    have h2 : 1 ≤ (flagBuilds p argv).count Builder.windows :=
      List.one_le_count_iff.mpr (hflag _ hmem.1)
    calc 2 = 1 + 1 := rfl
    _ ≤ 1 + (flagBuilds p argv).count Builder.windows := Nat.add_le_add_left h2 1
    _ = (buildsDispatched p argv).count Builder.windows := by
        simp [buildsDispatched, h1, List.count_append, List.count_cons, Nat.add_comm]

theorem relocate_exe_ne (q : FPath) : relocate exePath exeTarget q ≠ exePath := by
  intro h
  unfold relocate at h
  split at h
  · have hl := congrArg List.length h
    simp [exeTarget, exePath, scriptDist, scriptDir] at hl
  · next hnp =>
    apply hnp
    rw [h]
    decide

/-- C9: the Windows artifact relocator checks exactly the fixed path
PROJECT_ROOT/dist/generation-two.exe; when present the executable is moved
into the script-local distribution folder, and when absent an error message
is printed while the procedure still returns normally. -/
theorem windows_relocator_spec (env : Env) (fs : List FPath)
    (heff : ∀ c g, env.cmdEffect c g = g)
    (hpyi : env.pyinstallerInstalled = true)
    (hc : constantsFile ∈ fs) (hg : guiScript ∈ fs)
    (hb : env.cmdExit pyinstallerCmd = 0) :
    (build_windows_exe env fs).1 = Except.ok ()
  ∧ (exePath ∈ fs →
      exeTarget ∈ (build_windows_exe env fs).2.1 ∧ exePath ∉ (build_windows_exe env fs).2.1)
  ∧ (exePath ∉ fs →
      Event.print ("[ERROR] EXE not found in expected location") ∈ (build_windows_exe env fs).2.2) := by
  by_cases hexe : exePath ∈ fs
  · have hrun : build_windows_exe env fs =
        (Except.ok (),
          (fs ++ [specFile] ++ [scriptDist] ++ [scriptDist]).map (relocate exePath exeTarget),
          [Event.write specFile, Event.write scriptDist, Event.cmd pyinstallerCmd true,
           Event.write scriptDist, Event.remove exePath, Event.write exeTarget,
           Event.print ("[OK] Windows EXE built")]) := by
      have h1 : exePath ≠ specFile := by decide
      have h2 : exePath ≠ scriptDist := by decide
      simp [build_windows_exe, M.run_bind, M.run_pure, hpyi,
        resolveConstants_found false fs hc, existsP, writeTextP, mkdirP, moveP, emitP,
        run_command, heff, hb, hg, hexe, h1, h2]
    refine ⟨by rw [hrun], fun _ => ⟨?_, ?_⟩, fun hne => absurd hexe hne⟩
    · rw [hrun]
      refine List.mem_map.mpr ⟨exePath, ?_, by decide⟩
      simp [hexe]
    · rw [hrun]
      intro hmem
      rcases List.mem_map.mp hmem with ⟨q, _, hq⟩
      exact relocate_exe_ne q hq
  · have hrun : build_windows_exe env fs =
        (Except.ok (), fs ++ [specFile] ++ [scriptDist],
          [Event.write specFile, Event.write scriptDist, Event.cmd pyinstallerCmd true,
           Event.print ("[ERROR] EXE not found in expected location")]) := by
      have h1 : exePath ≠ specFile := by decide
      have h2 : exePath ≠ scriptDist := by decide
      simp [build_windows_exe, M.run_bind, M.run_pure, hpyi,
        resolveConstants_found false fs hc, existsP, writeTextP, mkdirP, emitP,
        run_command, heff, hb, hg, hexe, h1, h2]
    refine ⟨by rw [hrun], fun hmem => absurd hmem hexe, fun _ => ?_⟩
    rw [hrun]
    simp

theorem windows_relocator_spec_witness :
    (build_windows_exe envWinBuilt [guiScript, constantsFile, exePath]).1 = Except.ok ()
  ∧ (exePath ∈ [guiScript, constantsFile, exePath] →
      exeTarget ∈ (build_windows_exe envWinBuilt [guiScript, constantsFile, exePath]).2.1
      ∧ exePath ∉ (build_windows_exe envWinBuilt [guiScript, constantsFile, exePath]).2.1)
  ∧ (exePath ∉ [guiScript, constantsFile, exePath] →
      Event.print ("[ERROR] EXE not found in expected location")
        ∈ (build_windows_exe envWinBuilt [guiScript, constantsFile, exePath]).2.2) :=
  windows_relocator_spec envWinBuilt [guiScript, constantsFile, exePath]
    (fun _ _ => rfl) rfl (by decide) (by decide) rfl

theorem all_flag_dispatch_witness :
    Builder.windows ∈ flagBuilds ("win32") ["--all"]
  ∧ Builder.linux ∈ flagBuilds ("win32") ["--all"]
  ∧ (Builder.macos ∈ allBuilds ("win32") ↔ "win32" = "darwin")
  ∧ (strHasPre ("win") (strToLower ("win32")) = true →
      2 ≤ (buildsDispatched ("win32") ["--all"]).count Builder.windows) :=
  all_flag_dispatch ("win32") ["--all"] (by decide)

theorem M.bind_of_ok {α β : Type} (m : M α) (f : α → M β) (fs : List FPath) (a : α)
    (h : (m fs).1 = Except.ok a) :
    (m >>= f) fs =
      ((f a (m fs).2.1).1, (f a (m fs).2.1).2.1, (m fs).2.2 ++ (f a (m fs).2.1).2.2) := by
  have hm : m fs = (Except.ok a, (m fs).2.1, (m fs).2.2) := by rw [← h]
  rw [M.run_bind, hm]

theorem cleanOne_run (d : FPath) (fs : List FPath) :
    cleanOne d fs =
      (Except.ok (),
        if d ∈ fs then fs.filter (fun q => !(d.isPrefixOf q)) else fs,
        if d ∈ fs then [Event.print ("Cleaning"), Event.remove d] else []) := by
  by_cases hd : d ∈ fs <;>
    simp [cleanOne, M.run_bind, M.run_pure, existsP, emitP, rmtreeP, hd]

theorem cleanOne_clears (d : FPath) (fs : List FPath) (hd : d ≠ []) (hwf : WFfs fs) :
    ∀ q ∈ (cleanOne d fs).2.1, d.isPrefixOf q = false := by
  intro q hq
  simp only [cleanOne_run] at hq
  by_cases hmem : d ∈ fs
  · rw [if_pos hmem] at hq
    simpa using (List.mem_filter.mp hq).2
  · rw [if_neg hmem] at hq
    by_contra hpre
    have hp : d.isPrefixOf q = true := by
      cases hb : d.isPrefixOf q
      · exact absurd hb hpre
      · rfl
    have hpfx : d <+: q := List.isPrefixOf_iff_prefix.mp hp
    have hlen : d.length ≤ q.length := hpfx.length_le
    have htake : q.take d.length = d := ( List.prefix_iff_eq_take.mp hpfx).symm
    have hpos : 0 < d.length := List.length_pos.mpr hd
    have hin : q.take d.length ∈ fs := hwf q hq d.length (by omega) hpos
    rw [htake] at hin
    exact hmem hin

theorem cleanOne_keeps (d e : FPath) (fs : List FPath)
    (h : ∀ q ∈ fs, e.isPrefixOf q = false) :
    ∀ q ∈ (cleanOne d fs).2.1, e.isPrefixOf q = false := by
  intro q hq
  simp only [cleanOne_run] at hq
  by_cases hmem : d ∈ fs
  · rw [if_pos hmem] at hq
    exact h q (List.mem_filter.mp hq).1
  · rw [if_neg hmem] at hq
    exact h q hq

theorem cleanOne_wf (d : FPath) (fs : List FPath) (hwf : WFfs fs) :
    WFfs (cleanOne d fs).2.1 := by
  intro q hq n hn hpos
  simp only [cleanOne_run] at hq ⊢
  by_cases hmem : d ∈ fs
  · rw [if_pos hmem] at hq ⊢
    have hqf := List.mem_filter.mp hq
    refine List.mem_filter.mpr ⟨hwf q hqf.1 n hn hpos, ?_⟩
    have hnp : d.isPrefixOf q = false := by simpa using hqf.2
    cases hb : d.isPrefixOf (q.take n)
    · rfl
    · exfalso
      have h1 : d <+: q.take n := List.isPrefixOf_iff_prefix.mp hb
      have h2 : q.take n <+: q := List.take_prefix n q
      have h4 : d.isPrefixOf q = true := List.isPrefixOf_iff_prefix.mpr (h1.trans h2)
      rw [hnp] at h4
      exact Bool.false_ne_true h4
  · rw [if_neg hmem] at hq ⊢
    exact hwf q hq n hn hpos

theorem cleanList_st_cons (d : FPath) (ds : List FPath) (fs : List FPath) :
    (cleanList (d :: ds) fs).2.1 = (cleanList ds (cleanOne d fs).2.1).2.1 := by
  rw [cleanList, M.bind_of_ok _ _ fs () (by simp [cleanOne_run])]

theorem cleanList_ok (l : List FPath) (fs : List FPath) :
    (cleanList l fs).1 = Except.ok () := by
  induction l generalizing fs with
  | nil => rfl
  | cons d ds ih =>
    rw [cleanList, M.bind_of_ok _ _ fs () (by simp [cleanOne_run])]
    exact ih _

theorem cleanPhase_ok (fs : List FPath) : (cleanPhase fs).1 = Except.ok () := by
  unfold cleanPhase
  rw [M.bind_of_ok _ _ fs () (cleanList_ok _ _)]
  rfl

theorem cleanPhase_st (fs : List FPath) :
    (cleanPhase fs).2.1 =
      (cleanOne rootBuild (cleanOne scriptBuild (cleanOne rootDist
        (cleanOne scriptDist fs).2.1).2.1).2.1).2.1 ++ [scriptDist] := by
  unfold cleanPhase
  rw [M.bind_of_ok _ _ fs () (cleanList_ok _ _)]
  show (cleanList cleanTargets fs).2.1 ++ [scriptDist] = _
  rw [cleanTargets, cleanList_st_cons, cleanList_st_cons, cleanList_st_cons, cleanList_st_cons]
  rfl

theorem mainB_trace (env : Env) (fs : List FPath) :
    (mainB env fs).2.2 = (cleanPhase fs).2.2 ++ (dispatchPhase env (cleanPhase fs).2.1).2.2 := by
  unfold mainB
  rw [M.bind_of_ok _ _ fs () (cleanPhase_ok fs)]

/-- C5: on every invocation of the driver, the cleaning prelude succeeds,
removes every path below any of the four stale directories whatever the
prior contents of a well-formed filesystem (the script-local dist directory
is then recreated, empty), and the whole trace of main is the cleaning
trace followed by the dispatch trace, so every deletion precedes every
build procedure. -/
theorem main_cleans_before_dispatch (env : Env) (fs : List FPath) (hwf : WFfs fs) :
    (cleanPhase fs).1 = Except.ok ()
  ∧ scriptDist ∈ (cleanPhase fs).2.1
  ∧ (∀ q ∈ (cleanPhase fs).2.1,
      rootDist.isPrefixOf q = false ∧ scriptBuild.isPrefixOf q = false
      ∧ rootBuild.isPrefixOf q = false ∧ (scriptDist.isPrefixOf q = true → q = scriptDist))
  ∧ (mainB env fs).2.2 = (cleanPhase fs).2.2 ++ (dispatchPhase env (cleanPhase fs).2.1).2.2 := by
  have h1 := cleanOne_clears scriptDist fs (by decide) hwf
  have w1 := cleanOne_wf scriptDist fs hwf
  have h2 := cleanOne_clears rootDist _ (by decide) w1
  have w2 := cleanOne_wf rootDist _ w1
  have h1b := cleanOne_keeps rootDist scriptDist _ h1
  have h3 := cleanOne_clears scriptBuild _ (by decide) w2
  have w3 := cleanOne_wf scriptBuild _ w2
  have h1c := cleanOne_keeps scriptBuild scriptDist _ h1b
  have h2c := cleanOne_keeps scriptBuild rootDist _ h2
  have h4 := cleanOne_clears rootBuild _ (by decide) w3
  have h1d := cleanOne_keeps rootBuild scriptDist _ h1c
  have h2d := cleanOne_keeps rootBuild rootDist _ h2c
  have h3d := cleanOne_keeps rootBuild scriptBuild _ h3
  refine ⟨cleanPhase_ok fs, ?_, ?_, mainB_trace env fs⟩
  · rw [cleanPhase_st]
    simp
  · intro q hq
    rw [cleanPhase_st] at hq
    rcases List.mem_append.mp hq with hq4 | hq1
    · exact ⟨h2d q hq4, h3d q hq4, h4 q hq4,
        fun hp => absurd hp (by simp [h1d q hq4])⟩
    · have hq' : q = scriptDist := by simpa using hq1
      subst hq'
      exact ⟨by decide, by decide, by decide, fun _ => rfl⟩

theorem main_cleans_before_dispatch_witness :
    (cleanPhase [rootDist, ["dist", "old.deb"]]).1 = Except.ok ()
  ∧ scriptDist ∈ (cleanPhase [rootDist, ["dist", "old.deb"]]).2.1
  ∧ (∀ q ∈ (cleanPhase [rootDist, ["dist", "old.deb"]]).2.1,
      rootDist.isPrefixOf q = false ∧ scriptBuild.isPrefixOf q = false
      ∧ rootBuild.isPrefixOf q = false ∧ (scriptDist.isPrefixOf q = true → q = scriptDist))
  ∧ (mainB envLinuxHost [rootDist, ["dist", "old.deb"]]).2.2 =
      (cleanPhase [rootDist, ["dist", "old.deb"]]).2.2
        ++ (dispatchPhase envLinuxHost (cleanPhase [rootDist, ["dist", "old.deb"]]).2.1).2.2 :=
  main_cleans_before_dispatch envLinuxHost [rootDist, ["dist", "old.deb"]] (by decide)

theorem contains_eq_decide (fs : List FPath) (p : FPath) :
    fs.contains p = decide (p ∈ fs) := by
  simp [List.contains]

theorem contains_eq_false_iff (fs : List FPath) (p : FPath) :
    fs.contains p = false ↔ p ∉ fs := by
  rw [← contains_iff_mem]
  cases fs.contains p <;> simp

theorem contains_append_of_ne (fs l : List FPath) (h : rootSetupPy ∉ l) :
    (fs ++ l).contains rootSetupPy = fs.contains rootSetupPy := by
  simp [contains_eq_decide, List.mem_append, h]

theorem contains_append_mem (fs l : List FPath) (h : rootSetupPy ∈ l) :
    (fs ++ l).contains rootSetupPy = true :=
  (contains_iff_mem _ _).mpr (List.mem_append.mpr (Or.inr h))

theorem contains_filter_ne (g : List FPath) :
    (g.filter (fun q => !(q == rootSetupPy))).contains rootSetupPy = false := by
  rw [contains_eq_false_iff]
  intro hx
  have h2 := (List.mem_filter.mp hx).2
  simp at h2

theorem tmp_ne_setup (r : List String) : tmpDir ++ r ≠ rootSetupPy := by
  intro h
  simp [tmpDir, rootSetupPy] at h

theorem deb_src_ok (p : FPath) (h : strHasSuf (".deb") (p.getLastD ("")) = true) :
    p.isPrefixOf rootSetupPy = false := by
  cases hb : p.isPrefixOf rootSetupPy
  · rfl
  · exfalso
    have hpfx := List.isPrefixOf_iff_prefix.mp hb
    have hlen : p.length ≤ 1 := by simpa [rootSetupPy] using hpfx.length_le
    have htake := List.prefix_iff_eq_take.mp hpfx
    rcases p with _ | ⟨x, xs⟩
    · exact absurd h (by decide)
    · rcases xs with _ | ⟨y, ys⟩
      · have hx : x = "setup.py" := by simpa [rootSetupPy] using htake
        subst hx
        exact absurd h (by decide)
      · simp at hlen

theorem keeps_pure {α : Type} (a : α) : KeepsSetup (pure a : M α) := fun _ => rfl

theorem keeps_emitP (e : Event) : KeepsSetup (emitP e) := fun _ => rfl

theorem keeps_getFs : KeepsSetup getFs := fun _ => rfl

theorem keeps_existsP (p : FPath) : KeepsSetup (existsP p) := fun _ => rfl

theorem keeps_raiseE {α : Type} (e : Err) : KeepsSetup (raiseE e : M α) := fun _ => rfl

theorem keeps_bind {α β : Type} {m : M α} {f : α → M β}
    (hm : KeepsSetup m) (hf : ∀ a, KeepsSetup (f a)) : KeepsSetup (m >>= f) := by
  intro fs
  have hm' := hm fs
  rw [M.run_bind]
  rcases hmm : m fs with ⟨r, fs1, t1⟩
  rw [hmm] at hm'
  cases r with
  | ok a =>
    show (f a fs1).2.1.contains rootSetupPy = fs.contains rootSetupPy
    exact (hf a fs1).trans hm'
  | error e => exact hm'

theorem keeps_ite {α : Type} (c : Prop) [Decidable c] {m1 m2 : M α}
    (h1 : KeepsSetup m1) (h2 : KeepsSetup m2) : KeepsSetup (if c then m1 else m2) := by
  by_cases hc : c
  · simpa [hc] using h1
  · simpa [hc] using h2

theorem keeps_tryCatchE {α : Type} {m : M α} {h : Err → M α}
    (hm : KeepsSetup m) (hh : ∀ e, KeepsSetup (h e)) : KeepsSetup (tryCatchE m h) := by
  intro fs
  have hm' := hm fs
  unfold tryCatchE
  rcases hmm : m fs with ⟨r, fs1, t1⟩
  rw [hmm] at hm'
  cases r with
  | ok a => exact hm'
  | error e =>
    show (h e fs1).2.1.contains rootSetupPy = fs.contains rootSetupPy
    exact (hh e fs1).trans hm'

theorem tryFinallyE_st {α : Type} (m : M α) (fin : M Unit) (fs : List FPath) :
    (tryFinallyE m fin fs).2.1 = (fin (m fs).2.1).2.1 := by
  unfold tryFinallyE
  rcases hm : m fs with ⟨r, fs1, t1⟩
  rcases hf : fin fs1 with ⟨r2, fs2, t2⟩
  cases r <;> cases r2 <;> simp [hm, hf]

theorem keeps_tryFinallyE {α : Type} {m : M α} {fin : M Unit}
    (hm : KeepsSetup m) (hf : KeepsSetup fin) : KeepsSetup (tryFinallyE m fin) := by
  intro fs
  show (tryFinallyE m fin fs).2.1.contains rootSetupPy = fs.contains rootSetupPy
  rw [tryFinallyE_st]
  exact (hf (m fs).2.1).trans (hm fs)

theorem keeps_mkdirP (p : FPath) (h : p ≠ rootSetupPy) : KeepsSetup (mkdirP p) := by
  intro fs
  show (fs ++ [p]).contains rootSetupPy = fs.contains rootSetupPy
  exact contains_append_of_ne fs [p] (by simp [Ne.symm h])

theorem keeps_copy2P (s p : FPath) (h : p ≠ rootSetupPy) : KeepsSetup (copy2P s p) := by
  intro fs
  show (fs ++ [p]).contains rootSetupPy = fs.contains rootSetupPy
  exact contains_append_of_ne fs [p] (by simp [Ne.symm h])

theorem keeps_rmtreeP (p : FPath) (h : p.isPrefixOf rootSetupPy = false) :
    KeepsSetup (rmtreeP p) := by
  intro fs
  show (fs.filter fun q => !(p.isPrefixOf q)).contains rootSetupPy = fs.contains rootSetupPy
  simp [contains_eq_decide, List.mem_filter, h]

theorem keeps_moveP (src dst : FPath) (hsrc : src.isPrefixOf rootSetupPy = false)
    (hdst : ∀ r : FPath, dst ++ r ≠ rootSetupPy) :
    KeepsSetup (moveP src dst) := by
  intro fs
  show (fs.map (relocate src dst)).contains rootSetupPy = fs.contains rootSetupPy
  have key : ∀ q, relocate src dst q = rootSetupPy ↔ q = rootSetupPy := by
    intro q
    constructor
    · intro hq
      unfold relocate at hq
      split at hq
      · exact absurd hq (hdst _)
      · exact hq
    · intro hq
      subst hq
      unfold relocate
      rw [hsrc]
      simp
  simp only [contains_eq_decide]
  rw [decide_eq_decide]
  constructor
  · intro hm
    rcases List.mem_map.mp hm with ⟨q, hq, he⟩
    have hqe : q = rootSetupPy := (key q).mp he
    rwa [hqe] at hq
  · intro hm
    exact List.mem_map.mpr ⟨rootSetupPy, hm, (key _).mpr rfl⟩

theorem keeps_run_command (env : Env) (cmd : List String) (check : Bool)
    (heffc : ∀ c g, (env.cmdEffect c g).contains rootSetupPy = g.contains rootSetupPy) :
    KeepsSetup (run_command env cmd check) := by
  intro fs
  have hm : rootSetupPy ∈ env.cmdEffect cmd fs ↔ rootSetupPy ∈ fs := by
    have h := heffc cmd fs
    rw [contains_eq_decide, contains_eq_decide] at h
    exact decide_eq_decide.mp h
  by_cases h0 : env.cmdExit cmd = 0 <;> cases check <;> simp [run_command, h0, hm]

theorem keeps_extractAllP (contents : List FPath) : KeepsSetup (extractAllP contents) := by
  intro fs
  show (fs ++ contents.map (fun r => tmpDir ++ r)).contains rootSetupPy
      = fs.contains rootSetupPy
  refine contains_append_of_ne fs _ ?_
  intro hx
  rcases List.mem_map.mp hx with ⟨r, _, he⟩
  exact tmp_ne_setup r he

theorem keeps_libCallP (env : Env) (c : String) :
    KeepsSetup (libCallP env (tmpDir ++ [c])) := by
  intro fs
  unfold libCallP
  cases h : env.libOk
  · simp
  · simp only [if_pos rfl, Bool.true_eq]
    rw [List.append_assoc fs]
    refine contains_append_of_ne fs _ ?_
    intro hx
    rcases List.mem_append.mp hx with h1 | h1
    · have h2 := List.mem_singleton.mp h1
      exact tmp_ne_setup [c, "deb_dist"] (by simpa [List.append_assoc] using h2.symm)
    · rcases List.mem_map.mp h1 with ⟨n, _, he⟩
      exact tmp_ne_setup [c, "deb_dist", n] (by simpa [List.append_assoc] using he)

theorem keeps_moveDebsToDist (l : List FPath)
    (hl : ∀ p ∈ l, p.isPrefixOf rootSetupPy = false) :
    KeepsSetup (moveDebsToDist l) := by
  induction l with
  | nil => exact keeps_pure ()
  | cons p ps ih =>
    rw [moveDebsToDist]
    refine keeps_bind (keeps_moveP p _ (hl p (by simp)) ?_)
      (fun _ => keeps_bind (keeps_emitP _) (fun _ => ih (fun q hq => hl q (by simp [hq]))))
    intro r h
    simp [rootDist, rootSetupPy] at h

theorem debsUnder_src_ok (d : FPath) (fs : List FPath) :
    ∀ p ∈ debsUnder d fs, p.isPrefixOf rootSetupPy = false := by
  intro p hp
  unfold debsUnder at hp
  have h2 := (List.mem_filter.mp hp).2
  rw [Bool.and_eq_true] at h2
  exact deb_src_ok p h2.2

theorem selectDebFiles_suffix (fs : List FPath) :
    ∀ p ∈ selectDebFiles fs, strHasSuf (".deb") (p.getLastD ("")) = true := by
  intro p hp
  simp only [selectDebFiles] at hp
  cases hc : fs.contains debDistDir
  · simp only [hc] at hp
    simp only [Bool.false_eq_true, if_false, List.isEmpty_nil, if_true] at hp
    exact (List.mem_filter.mp hp).2
  · simp only [hc, if_true] at hp
    by_cases he : (debsUnder debDistDir fs).isEmpty
    · simp only [if_pos he] at hp
      exact (List.mem_filter.mp hp).2
    · simp only [if_neg he] at hp
      unfold debsUnder at hp
      have h2 := (List.mem_filter.mp hp).2
      rw [Bool.and_eq_true] at h2
      exact h2.2

theorem keeps_sdistStage (env : Env)
    (heffc : ∀ c g, (env.cmdEffect c g).contains rootSetupPy = g.contains rootSetupPy) :
    KeepsSetup (sdistStage env) := by
  intro fs
  have heffm : ∀ c g, rootSetupPy ∈ env.cmdEffect c g ↔ rootSetupPy ∈ g := by
    intro c g
    have h := heffc c g
    rw [contains_eq_decide, contains_eq_decide] at h
    exact decide_eq_decide.mp h
  by_cases hsp : setupPy ∈ fs <;> by_cases hrs : rootSetupPy ∈ fs <;>
    by_cases h0 : env.cmdExit sdistCmd = 0 <;>
      simp [sdistStage, M.run_bind, M.run_pure, existsP, raiseE, copy2P, emitP, unlinkP,
        tryFinallyE, run_command, hsp, hrs, h0, heffm, List.mem_filter, List.mem_append,
        contains_eq_decide]

theorem keeps_apiFallbackBody (env : Env) : KeepsSetup (apiFallbackBody env) := by
  unfold apiFallbackBody
  refine keeps_bind (keeps_extractAllP _) (fun _ => ?_)
  cases extractedPkgDirs env.sdistContents with
  | nil => exact keeps_raiseE _
  | cons c cs =>
    refine keeps_bind (keeps_libCallP env c) (fun _ => ?_)
    refine keeps_bind (keeps_existsP _) (fun de => ?_)
    refine keeps_ite _ ?_ (keeps_raiseE _)
    exact keeps_bind keeps_getFs (fun fsNow =>
      keeps_moveDebsToDist _ (debsUnder_src_ok _ fsNow))

theorem keeps_convertStep (env : Env) (tarName : String)
    (heffc : ∀ c g, (env.cmdEffect c g).contains rootSetupPy = g.contains rootSetupPy) :
    KeepsSetup (convertStep env tarName) := by
  unfold convertStep
  cases env.py2dscDebPath with
  | none =>
    refine keeps_bind (keeps_emitP _) (fun _ => ?_)
    refine keeps_tryCatchE ?_ (fun e => ?_)
    · exact keeps_bind (keeps_run_command env _ _ heffc) (fun _ => keeps_pure _)
    · refine keeps_bind (keeps_emitP _) (fun _ => ?_)
      unfold apiFallback
      exact keeps_tryFinallyE (keeps_apiFallbackBody env) (keeps_rmtreeP tmpDir (by decide))
  | some cmdPath =>
    refine keeps_bind (keeps_emitP _) (fun _ => ?_)
    refine keeps_bind (keeps_run_command env _ _ heffc) (fun result => ?_)
    exact keeps_ite _ (keeps_emitP _) (keeps_pure _)

theorem keeps_debSearchStep : KeepsSetup debSearchStep := by
  unfold debSearchStep
  refine keeps_bind keeps_getFs (fun fsNow => ?_)
  cases hsel : selectDebFiles fsNow with
  | nil => exact keeps_emitP _
  | cons d rest =>
    have hd : strHasSuf (".deb") (d.getLastD ("")) = true :=
      selectDebFiles_suffix fsNow d (by rw [hsel]; exact List.mem_cons_self d rest)
    refine keeps_bind (keeps_mkdirP scriptDist (by decide)) (fun _ => ?_)
    refine keeps_bind (keeps_moveP d _ (deb_src_ok d hd) ?_) (fun _ => keeps_emitP _)
    intro r h
    simp [scriptDist, scriptDir, rootSetupPy] at h

theorem keeps_build_linux_deb (env : Env)
    (heffc : ∀ c g, (env.cmdEffect c g).contains rootSetupPy = g.contains rootSetupPy) :
    KeepsSetup (build_linux_deb env) := by
  unfold build_linux_deb
  refine keeps_bind (keeps_run_command env _ _ heffc) (fun _ => ?_)
  refine keeps_bind (keeps_sdistStage env heffc) (fun _ => ?_)
  refine keeps_bind keeps_getFs (fun fsNow => ?_)
  cases globTars fsNow with
  | nil => exact keeps_emitP _
  | cons t ts =>
    refine keeps_bind (keeps_emitP _) (fun _ => ?_)
    exact keeps_bind (keeps_convertStep env _ heffc) (fun _ => keeps_debSearchStep)

/-- C10: the Linux build procedure leaves the existence state of the
project-root setup.py unchanged, whatever the starting filesystem and
whatever the subprocess outcomes (in particular the temporary copy made
for the source-distribution step is removed again in the finally block
even when the sdist subprocess raises, and a pre-existing root setup.py is
never removed), provided the external subprocesses themselves do not
create or delete the root setup.py. -/
theorem linux_preserves_root_setup_py (env : Env) (fs : List FPath)
    (heffc : ∀ c g, (env.cmdEffect c g).contains rootSetupPy = g.contains rootSetupPy) :
    (build_linux_deb env fs).2.1.contains rootSetupPy = fs.contains rootSetupPy :=
  keeps_build_linux_deb env heffc fs

theorem linux_preserves_root_setup_py_witness :
    (build_linux_deb envDebPlain fsDeb).2.1.contains rootSetupPy
      = fsDeb.contains rootSetupPy :=
  linux_preserves_root_setup_py envDebPlain fsDeb (fun _ _ => rfl)
